import Mathlib

set_option maxRecDepth 4000

/-!
Verification of the lightweight PDF content extractor
(`src/modules/lightweight_extractor.py`).

Strings are modelled as lists of characters (`Str`).  The Python string
operations used by the source (`str.split`, `str.strip`, substring tests,
`os.path.join`) and the two regular expressions of `_extract_image_caption`
are embedded faithfully, including the backtracking behaviour of the lazy
group in the image-reference pattern and of the alternation in the
figure-label pattern.
-/

abbrev Str := List Char

/-- Python whitespace characters (the ASCII ones stripped by `str.strip` and
matched by the regex class `\s`). -/
def isPySpace (c : Char) : Bool :=
  c = ' ' || c = '\t' || c = '\n' || c = '\r' || c = '\x0b' || c = '\x0c'

/-- Python `str.strip()`: remove leading and trailing whitespace. -/
def pyStrip (cs : Str) : Str :=
  ((cs.dropWhile isPySpace).reverse.dropWhile isPySpace).reverse

/-- Python `str.split(sep)` for a one-character separator: keeps empty
pieces, result length is one more than the number of separators. -/
def pySplit (sep : Char) : Str → List Str
  | [] => [[]]
  | c :: rest =>
    if c = sep then [] :: pySplit sep rest
    else
      match pySplit sep rest with
      | l :: ls => (c :: l) :: ls
      | [] => [[c]]

/-- `listStartsWith pat cs`: `pat` is an initial segment of `cs`. -/
def listStartsWith : Str → Str → Bool
  | [], _ => true
  | _ :: _, [] => false
  | a :: as, b :: bs => a = b && listStartsWith as bs

/-- Python substring test `needle in hay`. -/
def containsSub (needle : Str) : Str → Bool
  | [] => needle.isEmpty
  | c :: rest => listStartsWith needle (c :: rest) || containsSub needle rest

/-- Two-argument `os.path.join` with POSIX separators, as used by the
source for building image and output paths. -/
def pyJoin (a b : Str) : Str :=
  if b.head? = some '/' then b
  else if a = [] then b
  else if a.getLast? = some '/' then a ++ b
  else a ++ '/' :: b

/-! ### Rule 1: the image-reference regex

The source searches `markdown_text` with the pattern
`!\[(.*?)\]\([^)]*FILENAME[^)]*\)` (FILENAME escaped) and keeps the first
match's group.  `.` does not match a newline; `[^)]` is any character other
than a closing parenthesis; the group is lazy, so at the leftmost viable
start position it takes the shortest extent that lets the rest match. -/

/-- Does `[^)]* fname [^)]* \)` match a prefix of `cs`?  The scan may walk
over any characters except `)` before the literal filename, and after the
filename it needs some later `)`. -/
def tailMatch (fname : Str) : Str → Bool
  | [] => false
  | c :: rest =>
    (listStartsWith fname (c :: rest) && ((c :: rest).drop fname.length).any (fun d => d = ')'))
    || (c ≠ ')' && tailMatch fname rest)

/-- Lazy group search: `cs` is the text after `![`; return the shortest
group (a run of non-newline characters) followed by `](` and a tail match,
if any. -/
def groupScan (fname : Str) : Str → Option Str
  | [] => none
  | c :: rest =>
    if listStartsWith [']', '('] (c :: rest) && tailMatch fname ((c :: rest).drop 2) then
      some []
    else if c = '\n' then none
    else (groupScan fname rest).map (fun g => c :: g)

/-- Group contents of the first (leftmost, lazy) match of the
image-reference pattern in `text`, mirroring `re.findall(...)[0]`. -/
def reFindFirstGroup (fname : Str) : Str → Option Str
  | [] => none
  | c :: rest =>
    if listStartsWith ['!', '['] (c :: rest) then
      match groupScan fname ((c :: rest).drop 2) with
      | some g => some g
      | none => reFindFirstGroup fname rest
    else reFindFirstGroup fname rest

/-- Rule 1 of `_extract_image_caption`: the stripped group of the first
image-reference match, provided it is non-empty. -/
def directRefCaption (fname text : Str) : Option Str :=
  match reFindFirstGroup fname text with
  | some g => if pyStrip g = [] then none else some (pyStrip g)
  | none => none

/-! ### Rule 2: the figure-label regex

`re.search(r'(?:Figure?|Fig\.?)\s*(\d+)[:\.]?\s*(.*)', line, re.IGNORECASE)`
— leftmost match; the alternation tries `Figure`, `Figur`, `Fig.`, `Fig`
in that order at each position; group 2 is the rest of the line after the
optional separator and whitespace. -/

/-- Case-insensitive prefix test (pattern given in lowercase). -/
def lowerStartsWith (pat cs : Str) : Bool :=
  listStartsWith pat (cs.map Char.toLower)

/-- Match `\s*(\d+)[:\.]?\s*(.*)` against `cs`; return group 2. -/
def figRest (cs : Str) : Option Str :=
  let cs1 := cs.dropWhile isPySpace
  match cs1 with
  | [] => none
  | c :: _ =>
    if c.isDigit then
      let cs2 := cs1.dropWhile Char.isDigit
      let cs3 :=
        match cs2 with
        | d :: r => if d = ':' || d = '.' then r else cs2
        | [] => []
      some (cs3.dropWhile isPySpace)
    else none

/-- Try the figure-label pattern anchored at the start of `cs`. -/
def figMatchAt (cs : Str) : Option Str :=
  (if lowerStartsWith ('f' :: 'i' :: 'g' :: 'u' :: 'r' :: 'e' :: []) cs then figRest (cs.drop 6) else none)
  <|> (if lowerStartsWith ('f' :: 'i' :: 'g' :: 'u' :: 'r' :: []) cs then figRest (cs.drop 5) else none)
  <|> (if lowerStartsWith ('f' :: 'i' :: 'g' :: '.' :: []) cs then figRest (cs.drop 4) else none)
  <|> (if lowerStartsWith ('f' :: 'i' :: 'g' :: []) cs then figRest (cs.drop 3) else none)

/-- `re.search` for the figure-label pattern: leftmost position wins;
returns group 2 of that match. -/
def reSearchFig : Str → Option Str
  | [] => none
  | c :: rest => figMatchAt (c :: rest) <|> reSearchFig rest

/-- Scan the lines at the given indices for a figure-label match with
non-empty stripped trailing text; return the first such text. -/
def figWindow (lines : List Str) : List Nat → Option Str
  | [] => none
  | j :: js =>
    match reSearchFig (lines.getD j []) with
    | some g => if pyStrip g = [] then figWindow lines js else some (pyStrip g)
    | none => figWindow lines js

/-! ### Rule 3: the fallback prose line -/

/-- The source's filter for a fallback caption line: the stripped line is
non-empty, does not start with `!`, is not all digits, is not all
`#`/`*`/`-`, and is longer than 10 characters. -/
def goodFallback (line : Str) : Bool :=
  let t := pyStrip line
  decide (t ≠ []) &&
  (match t with
   | d :: _ => decide (d ≠ '!')
   | [] => true) &&
  !(t.all Char.isDigit) &&
  !(t.all (fun c => c = '#' || c = '*' || c = '-')) &&
  decide (t.length > 10)

/-- Scan the lines at the given indices for the first fallback caption. -/
def fbWindow (lines : List Str) : List Nat → Option Str
  | [] => none
  | j :: js =>
    if goodFallback (lines.getD j []) then some (pyStrip (lines.getD j []))
    else fbWindow lines js

/-- Indices `i+1 .. min(len, i+6) - 1`: the downward figure-label window. -/
def downIdxs (len i : Nat) : List Nat := List.range' (i + 1) (min len (i + 6) - (i + 1))

/-- Indices `max(0, i-3) .. i-1`: the upward figure-label window. -/
def upIdxs (i : Nat) : List Nat := List.range' (i - 3) (i - (i - 3))

/-- Indices `i+1 .. min(len, i+4) - 1`: the fallback window. -/
def fbIdxs (len i : Nat) : List Nat := List.range' (i + 1) (min len (i + 4) - (i + 1))

/-- Downward figure-label scan from line `i`. -/
def figDown (lines : List Str) (i : Nat) : Option Str :=
  figWindow lines (downIdxs lines.length i)

/-- Upward figure-label scan from line `i`. -/
def figUp (lines : List Str) (i : Nat) : Option Str :=
  figWindow lines (upIdxs i)

/-- Fallback prose-line scan from line `i`. -/
def captionFallback (lines : List Str) (i : Nat) : Option Str :=
  fbWindow lines (fbIdxs lines.length i)

/-- One iteration of the source's line loop: if line `i` contains the
filename, try the downward figure scan, then the upward one, then the
fallback; otherwise skip the line. -/
def tryLine (fname : Str) (lines : List Str) (i : Nat) : Option Str :=
  if containsSub fname (lines.getD i []) then
    figDown lines i <|> figUp lines i <|> captionFallback lines i
  else none

/-- First `some` value of `f` over a list of indices, in order. -/
def idxScan {α : Type} (f : Nat → Option α) : List Nat → Option α
  | [] => none
  | j :: js =>
    match f j with
    | some c => some c
    | none => idxScan f js

/-- `_extract_image_caption(markdown_text, image_filename)`: rule 1, then
the line loop over every line (rules 2 and 3 per line containing the
filename), else the empty string. -/
def extract_image_caption (text fname : Str) : Str :=
  match directRefCaption fname text with
  | some c => c
  | none =>
    match idxScan (tryLine fname (pySplit '\n' text))
        (List.range (pySplit '\n' text).length) with
    | some c => c
    | none => []

/-- The spec's reading of the line loop, for comparison with the source:
rules 2 and 3 are applied at the first line containing the filename only;
later occurrence lines are not consulted. -/
def extract_image_caption_first_line_only (text fname : Str) : Str :=
  match directRefCaption fname text with
  | some c => c
  | none =>
    match (List.range (pySplit '\n' text).length).find?
        (fun i => containsSub fname ((pySplit '\n' text).getD i [])) with
    | some i => (tryLine fname (pySplit '\n' text) i).getD []
    | none => []

/-! ### The extraction session (`LightweightExtractor`)

The external converter call, the image `save` calls, the wall clock and the
filesystem are effects; they enter the embedding as explicit parameters:
the converter's outcome (`ConvResult`), a per-image save-failure oracle
(`Nat → Bool`, `true` meaning `image.save` raised for that index), the
measured conversion duration and the current timestamp. -/

structure Extractor where
  pdf_path : Str
  output_dir : Str
  session_id : Str
  img_dir : Str

/-- `LightweightExtractor.__init__`: stores the paths and builds the
session image directory `os.path.join("output", "images", session_id)` —
note the literal `"output"` in the source, not `output_dir`. -/
def initExtractor (pdf_path output_dir session_id : Str) : Extractor :=
  { pdf_path := pdf_path
    output_dir := output_dir
    session_id := session_id
    img_dir := pyJoin (pyJoin ("output".toList) ("images".toList)) session_id }

structure ImageInfo where
  id : Str
  filename : Str
  path : Str
  caption : Str
deriving DecidableEq

structure Content where
  full_text : Str
  images : List ImageInfo
  pdf_path : Str
  extraction_time : Str
  conversion_time_seconds : Int
  session_id : Str
deriving DecidableEq

/-- What the converter hands back: markdown text and the ordered filenames
of its image map (payload bytes are irrelevant to the record). -/
structure ConvOutput where
  markdown : Str
  images : List Str

inductive ConvResult where
  | ok (out : ConvOutput)
  | err (msg : Str)

/-- The id assigned to the image at 1-based position `n`: `"fig" + n`. -/
def figLabel (n : Nat) : Str := 'f' :: 'i' :: 'g' :: Nat.toDigits 10 n

/-- The per-image loop of `extract_content`: save each image (a raised
save aborts the whole loop), resolve its caption, and build its record. -/
def buildImages (ex : Extractor) (md : Str) :
    List Str → (Nat → Bool) → Nat → Option (List ImageInfo)
  | [], _, _ => some []
  | f :: rest, saveFails, i =>
    if saveFails i then none
    else
      match buildImages ex md rest saveFails (i + 1) with
      | some infos =>
        some ({ id := figLabel (i + 1), filename := f, path := pyJoin ex.img_dir f,
                caption := extract_image_caption md f } :: infos)
      | none => none

/-- `extract_content`: convert, materialize every image, assemble the
record; any raised error inside the `try` block yields `none`. -/
def extract_content (ex : Extractor) (conv : ConvResult) (saveFails : Nat → Bool)
    (convTime : Int) (now : Str) : Option Content :=
  match conv with
  | .err _ => none
  | .ok out =>
    match buildImages ex out.markdown out.images saveFails 0 with
    | some imgs =>
      some { full_text := out.markdown, images := imgs, pdf_path := ex.pdf_path,
             extraction_time := now, conversion_time_seconds := convTime,
             session_id := ex.session_id }
    | none => none

/-! ### Content persistence (`save_content`) -/

/-- The structured document written by `json.dump`. -/
inductive JVal where
  | jstr (s : Str)
  | jnum (n : Int)
  | jarr (xs : List JVal)
  | jobj (fields : List (Str × JVal))

def imageToJson (r : ImageInfo) : JVal :=
  .jobj [("id".toList, .jstr r.id), ("filename".toList, .jstr r.filename),
         ("path".toList, .jstr r.path), ("caption".toList, .jstr r.caption)]

def contentToJson (c : Content) : JVal :=
  .jobj [("full_text".toList, .jstr c.full_text),
         ("images".toList, .jarr (c.images.map imageToJson)),
         ("pdf_path".toList, .jstr c.pdf_path),
         ("extraction_time".toList, .jstr c.extraction_time),
         ("conversion_time_seconds".toList, .jnum c.conversion_time_seconds),
         ("session_id".toList, .jstr c.session_id)]

def jkeys : JVal → List Str
  | .jobj fs => fs.map (fun p => p.1)
  | _ => []

def jlookup (k : Str) : List (Str × JVal) → Option JVal
  | [] => none
  | p :: ps => if p.1 = k then some p.2 else jlookup k ps

def jget (j : JVal) (k : Str) : Option JVal :=
  match j with
  | .jobj fs => jlookup k fs
  | _ => none

def imageOfJson (j : JVal) : Option ImageInfo :=
  match jget j ("id".toList), jget j ("filename".toList),
        jget j ("path".toList), jget j ("caption".toList) with
  | some (.jstr i), some (.jstr f), some (.jstr p), some (.jstr c) =>
    some { id := i, filename := f, path := p, caption := c }
  | _, _, _, _ => none

def imagesOfJson : List JVal → Option (List ImageInfo)
  | [] => some []
  | j :: js =>
    match imageOfJson j, imagesOfJson js with
    | some r, some rs => some (r :: rs)
    | _, _ => none

/-- Reading a persisted content document back into a `Content`. -/
def contentOfJson (j : JVal) : Option Content :=
  match jget j ("full_text".toList), jget j ("images".toList),
        jget j ("pdf_path".toList), jget j ("extraction_time".toList),
        jget j ("conversion_time_seconds".toList), jget j ("session_id".toList) with
  | some (.jstr ft), some (.jarr xs), some (.jstr pp), some (.jstr et),
      some (.jnum ct), some (.jstr sid) =>
    match imagesOfJson xs with
    | some imgs =>
      some { full_text := ft, images := imgs, pdf_path := pp, extraction_time := et,
             conversion_time_seconds := ct, session_id := sid }
    | none => none
  | _, _, _, _, _, _ => none

/-- The destination used by `save_content`: the given path, or the default
`os.path.join(self.output_dir, "lightweight_content.json")`. -/
def savePath (output_dir : Str) (output_file : Option Str) : Str :=
  match output_file with
  | some p => p
  | none => pyJoin output_dir ("lightweight_content.json".toList)

/-- `save_content`: returns the path written and the persisted document. -/
def save_content (ex : Extractor) (content : Content) (output_file : Option Str) :
    Str × JVal :=
  (savePath ex.output_dir output_file, contentToJson content)

/-! ### Cleanup (`cleanup_temp_files`)

The filesystem is a list of existing paths.  `shutil.rmtree` may raise;
`rmFails` says whether it does, and `fsAfterFail` is the (unspecified)
filesystem state it leaves behind in that case — the exception itself is
swallowed by the source's `except` block, so the function is total. -/

abbrev FS := List Str

def pathExists (fs : FS) (p : Str) : Bool := fs.any (fun q => q = p)

/-- Successful `shutil.rmtree d`: removes `d` and everything under it. -/
def rmtree (fs : FS) (d : Str) : FS :=
  fs.filter (fun p => !(p = d || listStartsWith (d ++ ['/']) p))

def cleanup_temp_files (fs : FS) (imgDir : Str) (rmFails : Bool) (fsAfterFail : FS) : FS :=
  if pathExists fs imgDir then
    (if rmFails then fsAfterFail else rmtree fs imgDir)
  else fs

/-! ### The convenience function (`extract_lightweight_content`)

Result: the `(content, output_file)` pair the Python function returns,
plus two trace booleans recording whether `save_content` and
`cleanup_temp_files` were called. -/

def extract_lightweight_content (ex : Extractor) (conv : ConvResult)
    (saveFails : Nat → Bool) (convTime : Int) (now : Str) (cleanup_temp : Bool) :
    (Option Content × Option Str) × Bool × Bool :=
  match extract_content ex conv saveFails convTime now with
  | some c => ((some c, some (save_content ex c none).1), true, cleanup_temp)
  | none => ((none, none), false, false)

/-! ## Helper lemmas -/

theorem idxScan_append {α : Type} (f : Nat → Option α) (l₁ l₂ : List Nat) :
    idxScan f (l₁ ++ l₂) =
      match idxScan f l₁ with
      | some c => some c
      | none => idxScan f l₂ := by
  induction l₁ with
  | nil => rfl
  | cons j js ih =>
    simp only [List.cons_append, idxScan]
    cases f j with
    | some c => rfl
    | none => exact ih

theorem idxScan_range_none {α : Type} (f : Nat → Option α) (n : Nat)
    (h : ∀ j, j < n → f j = none) : idxScan f (List.range n) = none := by
  induction n with
  | zero => rfl
  | succ n ih =>
    rw [List.range_succ, idxScan_append,
      ih (fun j hj => h j (Nat.lt_succ_of_lt hj))]
    simp [idxScan, h n (Nat.lt_succ_self n)]

theorem idxScan_range_found {α : Type} (f : Nat → Option α) (n i : Nat) (c : α)
    (hi : i < n) (hb : ∀ j, j < i → f j = none) (hf : f i = some c) :
    idxScan f (List.range n) = some c := by
  induction n with
  | zero => omega
  | succ n ih =>
    rw [List.range_succ, idxScan_append]
    by_cases hin : i < n
    · rw [ih hin]
    · have hieq : i = n := by omega
      subst hieq
      rw [idxScan_range_none f i hb]
      simp [idxScan, hf]

theorem fbWindow_range' (lines : List Str) (j : Nat) :
    ∀ (s n : Nat), s ≤ j → j < s + n →
      goodFallback (lines.getD j []) = true →
      (∀ k, s ≤ k → k < j → goodFallback (lines.getD k []) = false) →
      fbWindow lines (List.range' s n) = some (pyStrip (lines.getD j [])) := by
  intro s n
  induction n generalizing s with
  | zero => omega
  | succ n ih =>
    intro hsj hjn hg hbad
    show fbWindow lines (s :: List.range' (s + 1) n) = _
    by_cases hs : s = j
    · subst hs
      unfold fbWindow
      rw [hg]
      simp
    · have hlt : s < j := by omega
      have hbadS : goodFallback (lines.getD s []) = false := hbad s (Nat.le_refl s) hlt
      unfold fbWindow
      rw [hbadS]
      simp only [Bool.false_eq_true, if_false]
      exact ih (s + 1) (by omega) (by omega) hg (fun k hk1 hk2 => hbad k (by omega) hk2)

/-! ## Claims about the caption matcher -/

/-- Claim C2: for every markdown text containing a markdown image
reference whose path contains the queried filename, the caption resolver
returns the bracketed text of the first such regex match, trimmed of
surrounding whitespace, whenever that trimmed text is non-empty. -/
theorem claim_C2 (text fname g : Str)
    (hfind : reFindFirstGroup fname text = some g)
    (hne : pyStrip g ≠ []) :
    extract_image_caption text fname = pyStrip g := by
  have hdr : directRefCaption fname text = some (pyStrip g) := by
    unfold directRefCaption
    rw [hfind]
    exact if_neg hne
  unfold extract_image_caption
  rw [hdr]

theorem claim_C2_witness :
    extract_image_caption ("intro ![ Caption X ](images/img1.png) end".toList)
      ("img1.png".toList) = ("Caption X".toList) := by
  have h := claim_C2 ("intro ![ Caption X ](images/img1.png) end".toList)
    ("img1.png".toList) (" Caption X ".toList) (by decide) (by decide)
  exact h.trans (by decide)

/-- Claim C3 is false as stated: the source's line loop has no `break`, so
when the first line containing the filename yields nothing, later lines
containing the filename ARE consulted.  Here the filename occurs on line 0
(which yields no caption) and again on line 6, followed by a figure label:
the code returns that label's text, while the claim's first-line-only
reading returns the empty string. -/
theorem claim_C3_counterexample :
    extract_image_caption
        ("i.png\nx\nx\nx\nx\nx\ni.png\nFigure 1: Nice caption".toList) ("i.png".toList)
      = ("Nice caption".toList)
    ∧ extract_image_caption_first_line_only
        ("i.png\nx\nx\nx\nx\nx\ni.png\nFigure 1: Nice caption".toList) ("i.png".toList)
      = [] :=
  ⟨by decide, by decide⟩

/-- Claim C3 (amended): when rule 1 yields no caption, the resolver visits
every line containing the filename in order (not only the first); at each
such line it scans offsets +1..+5 downward for a figure label with
non-empty trimmed trailing text, then offsets -3..-1 upward.  The first
line whose scans succeed determines the result: if line `i` contains the
filename, every earlier filename line yields nothing, and line `i`'s
downward scan — or, failing that, its upward scan — finds a label text
`c`, then `c` is returned. -/
theorem claim_C3 (text fname c : Str) (i : Nat)
    (h1 : directRefCaption fname text = none)
    (hi : i < (pySplit '\n' text).length)
    (hcont : containsSub fname ((pySplit '\n' text).getD i []) = true)
    (hprior : ∀ j, j < i → containsSub fname ((pySplit '\n' text).getD j []) = true →
      tryLine fname (pySplit '\n' text) j = none)
    (hfig : figDown (pySplit '\n' text) i = some c
      ∨ (figDown (pySplit '\n' text) i = none ∧ figUp (pySplit '\n' text) i = some c)) :
    extract_image_caption text fname = c := by
  have hpriorAll : ∀ j, j < i → tryLine fname (pySplit '\n' text) j = none := by
    intro j hj
    by_cases hc : containsSub fname ((pySplit '\n' text).getD j []) = true
    · exact hprior j hj hc
    · unfold tryLine
      rw [if_neg hc]
  have htry : tryLine fname (pySplit '\n' text) i = some c := by
    unfold tryLine
    rw [if_pos hcont]
    rcases hfig with h | ⟨hd, hu⟩
    · rw [h]
      rfl
    · rw [hd, hu]
      rfl
  unfold extract_image_caption
  rw [h1, idxScan_range_found (tryLine fname (pySplit '\n' text))
    (pySplit '\n' text).length i c hi hpriorAll htry]

theorem claim_C3_witness :
    extract_image_caption
        ("i.png\nx\nx\nx\nx\nx\ni.png\nFigure 1: Nice caption".toList) ("i.png".toList)
      = ("Nice caption".toList) := by
  refine claim_C3 _ _ _ 6 (by decide) (by decide) (by decide) ?_ (Or.inl (by decide))
  intro j hj hcont
  interval_cases j
  · decide
  · exact absurd hcont (by decide)
  · exact absurd hcont (by decide)
  · exact absurd hcont (by decide)
  · exact absurd hcont (by decide)
  · exact absurd hcont (by decide)

/-- Claim C4: when neither rule 1 nor the figure-label scans yield a
caption for the filename line `i`, the resolver scans offsets +1..+3 after
that line and returns the first line, trimmed, that is non-empty, does not
start with `!`, is not purely numeric, is not composed solely of the
characters `#`, `*`, `-`, and has trimmed length greater than 10. -/
theorem claim_C4 (text fname : Str) (i j : Nat)
    (h1 : directRefCaption fname text = none)
    (hi : i < (pySplit '\n' text).length)
    (hcont : containsSub fname ((pySplit '\n' text).getD i []) = true)
    (hprior : ∀ k, k < i → containsSub fname ((pySplit '\n' text).getD k []) = true →
      tryLine fname (pySplit '\n' text) k = none)
    (hdown : figDown (pySplit '\n' text) i = none)
    (hup : figUp (pySplit '\n' text) i = none)
    (hj1 : i + 1 ≤ j) (hj2 : j < min (pySplit '\n' text).length (i + 4))
    (hgood : goodFallback ((pySplit '\n' text).getD j []) = true)
    (hfirst : ∀ k, i + 1 ≤ k → k < j →
      goodFallback ((pySplit '\n' text).getD k []) = false) :
    extract_image_caption text fname = pyStrip ((pySplit '\n' text).getD j []) := by
  have hpriorAll : ∀ k, k < i → tryLine fname (pySplit '\n' text) k = none := by
    intro k hk
    by_cases hc : containsSub fname ((pySplit '\n' text).getD k []) = true
    · exact hprior k hk hc
    · unfold tryLine
      rw [if_neg hc]
  have hfb : captionFallback (pySplit '\n' text) i
      = some (pyStrip ((pySplit '\n' text).getD j [])) := by
    unfold captionFallback fbIdxs
    exact fbWindow_range' (pySplit '\n' text) j (i + 1)
      (min (pySplit '\n' text).length (i + 4) - (i + 1)) hj1 (by omega) hgood hfirst
  have htry : tryLine fname (pySplit '\n' text) i
      = some (pyStrip ((pySplit '\n' text).getD j [])) := by
    unfold tryLine
    rw [if_pos hcont, hdown, hup, hfb]
    rfl
  unfold extract_image_caption
  rw [h1, idxScan_range_found (tryLine fname (pySplit '\n' text))
    (pySplit '\n' text).length i _ hi hpriorAll htry]

theorem claim_C4_witness :
    extract_image_caption
        ("photo of img3.png\nA lovely description line\nshort".toList) ("img3.png".toList)
      = ("A lovely description line".toList) := by
  have h := claim_C4 ("photo of img3.png\nA lovely description line\nshort".toList)
    ("img3.png".toList) 0 1 (by decide) (by decide) (by decide)
    (fun k hk _ => absurd hk (by omega)) (by decide) (by decide)
    (by omega) (by decide) (by decide) (fun k hk1 hk2 => absurd hk1 (by omega))
  exact h.trans (by decide)

/-- Claim C5: the caption resolver is a total function; when rule 1 fails
and no line of the text produces a caption through rules 2 or 3, it
returns the empty string. -/
theorem claim_C5 (text fname : Str)
    (h1 : directRefCaption fname text = none)
    (h2 : ∀ i, i < (pySplit '\n' text).length →
      tryLine fname (pySplit '\n' text) i = none) :
    extract_image_caption text fname = [] := by
  unfold extract_image_caption
  rw [h1, idxScan_range_none (tryLine fname (pySplit '\n' text))
    (pySplit '\n' text).length h2]

theorem claim_C5_witness :
    extract_image_caption ("hello world".toList) ("img.png".toList) = [] := by
  refine claim_C5 _ _ (by decide) ?_
  intro i hi
  have hlen : (pySplit '\n' ("hello world".toList)).length = 1 := by decide
  rw [hlen] at hi
  interval_cases i
  decide

/-! ## Claims about the extraction session -/

theorem buildImages_none (ex : Extractor) (md : Str) (sf : Nat → Bool) :
    ∀ (l : List Str) (k : Nat), (∃ j, j < l.length ∧ sf (k + j) = true) →
      buildImages ex md l sf k = none := by
  intro l
  induction l with
  | nil =>
    rintro k ⟨j, hj, -⟩
    exact absurd hj (Nat.not_lt_zero j)
  | cons f rest ih =>
    rintro k ⟨j, hj, hsf⟩
    unfold buildImages
    by_cases hk : sf k = true
    · rw [if_pos hk]
    · cases j with
      | zero => exact absurd hsf hk
      | succ j' =>
        rw [if_neg hk]
        have hrest : buildImages ex md rest sf (k + 1) = none := by
          apply ih (k + 1)
          refine ⟨j', ?_, ?_⟩
          · simp only [List.length_cons] at hj
            omega
          · have hkj : k + 1 + j' = k + (j' + 1) := by omega
            rw [hkj]
            exact hsf
        rw [hrest]

theorem buildImages_spec (ex : Extractor) (md : Str) (sf : Nat → Bool) :
    ∀ (l : List Str) (k : Nat) (imgs : List ImageInfo),
      buildImages ex md l sf k = some imgs →
      imgs.map ImageInfo.id = (List.range l.length).map (fun j => figLabel (k + j + 1))
      ∧ imgs.map ImageInfo.filename = l
      ∧ imgs.map ImageInfo.path = l.map (fun f => pyJoin ex.img_dir f)
      ∧ imgs.map ImageInfo.caption = l.map (fun f => extract_image_caption md f) := by
  intro l
  induction l with
  | nil =>
    intro k imgs h
    unfold buildImages at h
    injection h with h
    subst h
    simp
  | cons f rest ih =>
    intro k imgs h
    unfold buildImages at h
    by_cases hk : sf k = true
    · rw [if_pos hk] at h
      cases h
    · rw [if_neg hk] at h
      cases hrec : buildImages ex md rest sf (k + 1) with
      | none =>
        rw [hrec] at h
        cases h
      | some infos =>
        rw [hrec] at h
        injection h with h
        subst h
        obtain ⟨h1, h2, h3, h4⟩ := ih (k + 1) infos hrec
        have hfun : ((fun j => figLabel (k + j + 1)) ∘ Nat.succ)
            = fun j : Nat => figLabel (k + 1 + j + 1) := by
          funext j
          show figLabel (k + (j + 1) + 1) = figLabel (k + 1 + j + 1)
          congr 1
          omega
        refine ⟨?_, ?_, ?_, ?_⟩
        · rw [List.map_cons, h1, List.length_cons, List.range_succ_eq_map,
            List.map_cons, List.map_map, hfun]
        · rw [List.map_cons, h2]
        · rw [List.map_cons, h3, List.map_cons]
        · rw [List.map_cons, h4, List.map_cons]

/-- Claim C1: any failure during conversion or image materialization makes
`extract_content` return no content; a returned record is never partial —
it always carries one record per converter-supplied image. -/
theorem claim_C1 (ex : Extractor) (out : ConvOutput) (sf : Nat → Bool) (t : Int)
    (now m : Str) (c : Content) :
    extract_content ex (ConvResult.err m) sf t now = none
    ∧ ((∃ i, i < out.images.length ∧ sf i = true) →
        extract_content ex (ConvResult.ok out) sf t now = none)
    ∧ (extract_content ex (ConvResult.ok out) sf t now = some c →
        c.images.length = out.images.length) := by
  refine ⟨rfl, ?_, ?_⟩
  · rintro ⟨i, hi, hsf⟩
    simp only [extract_content]
    have hb : buildImages ex out.markdown out.images sf 0 = none := by
      apply buildImages_none ex out.markdown sf out.images 0
      refine ⟨i, hi, ?_⟩
      rw [Nat.zero_add]
      exact hsf
    rw [hb]
  · intro h
    simp only [extract_content] at h
    cases hrec : buildImages ex out.markdown out.images sf 0 with
    | none =>
      rw [hrec] at h
      cases h
    | some imgs =>
      rw [hrec] at h
      injection h with h
      subst h
      obtain ⟨-, h2, -, -⟩ := buildImages_spec ex out.markdown sf out.images 0 imgs hrec
      show imgs.length = out.images.length
      rw [← h2, List.length_map]

theorem claim_C1_witness :
    extract_content (initExtractor ("a.pdf".toList) ("output".toList) ("s1".toList))
      (ConvResult.ok ⟨("t".toList), [("a.jpg".toList)]⟩) (fun _ => true) 0 ("n".toList)
      = none :=
  (claim_C1 (initExtractor ("a.pdf".toList) ("output".toList) ("s1".toList))
    ⟨("t".toList), [("a.jpg".toList)]⟩ (fun _ => true) 0 ("n".toList) []
    ⟨[], [], [], [], 0, []⟩).2.1 ⟨0, by decide, rfl⟩

/-- Claim C6: a successful extraction over a converter result with N
images yields exactly N image records, with ids fig1..figN assigned by
position and filenames in the converter-supplied order. -/
theorem claim_C6 (ex : Extractor) (out : ConvOutput) (sf : Nat → Bool) (t : Int)
    (now : Str) (c : Content)
    (h : extract_content ex (ConvResult.ok out) sf t now = some c) :
    c.images.length = out.images.length
    ∧ c.images.map ImageInfo.id = (List.range out.images.length).map (fun j => figLabel (j + 1))
    ∧ c.images.map ImageInfo.filename = out.images := by
  simp only [extract_content] at h
  cases hrec : buildImages ex out.markdown out.images sf 0 with
  | none =>
    rw [hrec] at h
    cases h
  | some imgs =>
    rw [hrec] at h
    injection h with h
    subst h
    obtain ⟨h1, h2, -, -⟩ := buildImages_spec ex out.markdown sf out.images 0 imgs hrec
    have hfun : (fun j : Nat => figLabel (0 + j + 1)) = fun j : Nat => figLabel (j + 1) := by
      funext j
      congr 1
      omega
    refine ⟨?_, ?_, h2⟩
    · show imgs.length = out.images.length
      rw [← h2, List.length_map]
    · show imgs.map ImageInfo.id = _
      rw [h1, hfun]

theorem claim_C6_witness :
    (Content.mk ("t".toList)
      [⟨("fig1".toList), ("a.jpg".toList), ("output/images/s1/a.jpg".toList), []⟩,
       ⟨("fig2".toList), ("b.jpg".toList), ("output/images/s1/b.jpg".toList), []⟩]
      ("a.pdf".toList) ("n".toList) 0 ("s1".toList)).images.map ImageInfo.id
      = [("fig1".toList), ("fig2".toList)] := by
  have h := (claim_C6 (initExtractor ("a.pdf".toList) ("output".toList) ("s1".toList))
    ⟨("t".toList), [("a.jpg".toList), ("b.jpg".toList)]⟩ (fun _ => false) 0 ("n".toList)
    (Content.mk ("t".toList)
      [⟨("fig1".toList), ("a.jpg".toList), ("output/images/s1/a.jpg".toList), []⟩,
       ⟨("fig2".toList), ("b.jpg".toList), ("output/images/s1/b.jpg".toList), []⟩]
      ("a.pdf".toList) ("n".toList) 0 ("s1".toList)) (by decide)).2.1
  exact h.trans (by decide)

/-- Claim C7 is false as stated: the source joins the literal directory
`"output"` — not the configured `output_dir` — with `images` and the
session id, so with `output_dir = "custom_out"` the materialized image
lands under `output/images/...`, not `custom_out/images/...`. -/
theorem claim_C7_counterexample :
    ((extract_content (initExtractor ("a.pdf".toList) ("custom_out".toList) ("s1".toList))
        (ConvResult.ok ⟨("t".toList), [("x.jpg".toList)]⟩) (fun _ => false) 0 ("n".toList)).map
      (fun c => c.images.map (fun r => r.path)))
      = some [("output/images/s1/x.jpg".toList)]
    ∧ ("output/images/s1/x.jpg".toList) ≠ ("custom_out/images/s1/x.jpg".toList) :=
  ⟨by decide, by decide⟩

theorem initExtractor_img_dir (p odir sid : Str) (hsid : sid.head? ≠ some '/') :
    (initExtractor p odir sid).img_dir = ("output/images/".toList) ++ sid := by
  show pyJoin (pyJoin ("output".toList) ("images".toList)) sid = _
  have h1 : pyJoin ("output".toList) ("images".toList) = ("output/images".toList) := by decide
  rw [h1]
  unfold pyJoin
  rw [if_neg hsid, if_neg (by decide : ¬(("output/images".toList) = ([] : Str))),
    if_neg (by decide : ¬(("output/images".toList).getLast? = some '/'))]
  rfl

/-- Claim C7 (amended): each materialized image is stored at
`output/images/{session_id}/{filename}` — under the fixed directory
`"output"`, independent of the configured `output_dir`. -/
theorem claim_C7 (p odir sid : Str) (out : ConvOutput) (sf : Nat → Bool) (t : Int)
    (now : Str) (c : Content)
    (hsid : sid.head? ≠ some '/')
    (h : extract_content (initExtractor p odir sid) (ConvResult.ok out) sf t now = some c) :
    c.images.map (fun r => r.path)
      = out.images.map (fun f => pyJoin (("output/images/".toList) ++ sid) f) := by
  simp only [extract_content] at h
  cases hrec : buildImages (initExtractor p odir sid) out.markdown out.images sf 0 with
  | none =>
    rw [hrec] at h
    cases h
  | some imgs =>
    rw [hrec] at h
    injection h with h
    subst h
    obtain ⟨-, -, h3, -⟩ :=
      buildImages_spec (initExtractor p odir sid) out.markdown sf out.images 0 imgs hrec
    rw [initExtractor_img_dir p odir sid hsid] at h3
    exact h3

theorem claim_C7_witness :
    (Content.mk ("t".toList)
      [⟨("fig1".toList), ("x.jpg".toList), ("output/images/s1/x.jpg".toList), []⟩]
      ("a.pdf".toList) ("n".toList) 0 ("s1".toList)).images.map (fun r => r.path)
      = [("output/images/s1/x.jpg".toList)] := by
  have h := claim_C7 ("a.pdf".toList) ("custom_out".toList) ("s1".toList)
    ⟨("t".toList), [("x.jpg".toList)]⟩ (fun _ => false) 0 ("n".toList)
    (Content.mk ("t".toList)
      [⟨("fig1".toList), ("x.jpg".toList), ("output/images/s1/x.jpg".toList), []⟩]
      ("a.pdf".toList) ("n".toList) 0 ("s1".toList)) (by decide) (by decide)
  exact h.trans (by decide)

/-! ## Claims about persistence, cleanup and the convenience function -/

theorem imageOfJson_imageToJson (r : ImageInfo) :
    imageOfJson (imageToJson r) = some r := by
  cases r
  rfl

theorem imagesOfJson_map (l : List ImageInfo) :
    imagesOfJson (l.map imageToJson) = some l := by
  induction l with
  | nil => rfl
  | cons r rs ih =>
    show imagesOfJson (imageToJson r :: rs.map imageToJson) = _
    unfold imagesOfJson
    rw [imageOfJson_imageToJson, ih]

/-- Claim C8: saving a `Content` and loading the persisted structured
document reproduces every field with the same values and ordering; the
document uses exactly the field names `full_text`, `images` (entries with
`id`, `filename`, `path`, `caption`), `pdf_path`, `extraction_time`,
`conversion_time_seconds`, `session_id`; with no destination given, the
record is written to `lightweight_content.json` in the configured output
directory. -/
theorem claim_C8 (ex : Extractor) (c : Content) (r : ImageInfo) (dst : Option Str) :
    contentOfJson (save_content ex c dst).2 = some c
    ∧ jkeys (save_content ex c dst).2
        = [("full_text".toList), ("images".toList), ("pdf_path".toList),
           ("extraction_time".toList), ("conversion_time_seconds".toList),
           ("session_id".toList)]
    ∧ jkeys (imageToJson r)
        = [("id".toList), ("filename".toList), ("path".toList), ("caption".toList)]
    ∧ (save_content ex c none).1 = pyJoin ex.output_dir ("lightweight_content.json".toList) := by
  obtain ⟨ft, imgs, pp, et, ct, sid⟩ := c
  refine ⟨?_, rfl, by cases r; rfl, rfl⟩
  show contentOfJson (contentToJson ⟨ft, imgs, pp, et, ct, sid⟩) = _
  rw [show contentOfJson (contentToJson ⟨ft, imgs, pp, et, ct, sid⟩)
      = (match imagesOfJson (imgs.map imageToJson) with
         | some is => some (⟨ft, is, pp, et, ct, sid⟩ : Content)
         | none => none) from rfl]
  rw [imagesOfJson_map]

/-- Claim C9: cleanup removes the session image directory recursively when
it exists, swallows removal errors (it is a total function on the
filesystem state), does nothing when the directory does not exist, and a
second call after a successful cleanup is a no-op. -/
theorem claim_C9 (fs : FS) (d : Str) (b b2 : Bool) (aff : FS) :
    (pathExists fs d = true →
      cleanup_temp_files fs d false aff = rmtree fs d
      ∧ pathExists (cleanup_temp_files fs d false aff) d = false
      ∧ ∀ q, listStartsWith (d ++ ['/']) q = true →
          pathExists (cleanup_temp_files fs d false aff) q = false)
    ∧ (pathExists fs d = false → cleanup_temp_files fs d b aff = fs)
    ∧ cleanup_temp_files (cleanup_temp_files fs d false aff) d b2 aff
        = cleanup_temp_files fs d false aff := by
  have hfilter : ∀ (p : Str → Bool) (q : Str), p q = false →
      pathExists (fs.filter p) q = false := by
    intro p q hq
    rw [pathExists, List.any_eq_false]
    intro x hx
    rw [List.mem_filter] at hx
    simp only [decide_eq_true_eq]
    intro heq
    subst heq
    rw [hq] at hx
    exact Bool.false_ne_true hx.2
  have hself : pathExists (rmtree fs d) d = false := by
    apply hfilter
    simp
  have hunder : ∀ q, listStartsWith (d ++ ['/']) q = true →
      pathExists (rmtree fs d) q = false := by
    intro q hq
    apply hfilter
    simp [hq]
  have hsucc : pathExists fs d = true → cleanup_temp_files fs d false aff = rmtree fs d := by
    intro h
    unfold cleanup_temp_files
    rw [if_pos h]
    rfl
  have hnone : ∀ (fs' : FS), pathExists fs' d = false → ∀ b',
      cleanup_temp_files fs' d b' aff = fs' := by
    intro fs' h b'
    unfold cleanup_temp_files
    rw [h]
    simp
  refine ⟨fun h => ⟨hsucc h, ?_, ?_⟩, fun h => hnone fs h b, ?_⟩
  · rw [hsucc h]
    exact hself
  · intro q hq
    rw [hsucc h]
    exact hunder q hq
  · cases hex : pathExists fs d with
    | true =>
      rw [hsucc hex]
      exact hnone (rmtree fs d) hself b2
    | false =>
      rw [hnone fs hex false, hnone fs hex b2]

theorem claim_C9_witness :
    pathExists ([("output/images/s".toList), ("output/images/s/a.jpg".toList),
        ("other".toList)] : FS) ("output/images/s".toList) = true
    ∧ cleanup_temp_files
        ([("output/images/s".toList), ("output/images/s/a.jpg".toList),
          ("other".toList)] : FS) ("output/images/s".toList) false []
        = rmtree ([("output/images/s".toList), ("output/images/s/a.jpg".toList),
          ("other".toList)] : FS) ("output/images/s".toList) :=
  ⟨by decide,
   ((claim_C9 ([("output/images/s".toList), ("output/images/s/a.jpg".toList),
      ("other".toList)] : FS) ("output/images/s".toList) false false []).1
     (by decide)).1⟩

/-- Claim C10: when `extract_content` yields no content, the convenience
function returns `(None, None)`, calls neither `save_content` nor
`cleanup_temp_files` (even with `cleanup_temp = True`), so no content file
is written and the session image directory is left in place. -/
theorem claim_C10 (ex : Extractor) (conv : ConvResult) (sf : Nat → Bool) (t : Int)
    (now : Str) (ct : Bool)
    (h : extract_content ex conv sf t now = none) :
    extract_lightweight_content ex conv sf t now ct = ((none, none), false, false) := by
  unfold extract_lightweight_content
  rw [h]

theorem claim_C10_witness :
    extract_lightweight_content (initExtractor ("a.pdf".toList) ("output".toList) ("s1".toList))
      (ConvResult.err ("boom".toList)) (fun _ => false) 0 ("n".toList) true
      = ((none, none), false, false) :=
  claim_C10 (initExtractor ("a.pdf".toList) ("output".toList) ("s1".toList))
    (ConvResult.err ("boom".toList)) (fun _ => false) 0 ("n".toList) true rfl
